import Mathlib

/-!
Verification of the rule-handler core (packages/rule-handler/src/rule.ts):
filter parsing, predicate evaluation, action dispatch and rule-store query.

The TypeScript source is shallowly embedded below.  External collaborators
(the search-query-parser library, the auth-token issuer, the Rule Store
HTTP query and the downstream action APIs) are modelled as opaque inputs
or as an indexed environment of external-call results, following the
spec's description of their contracts.
-/

namespace RuleHandler

/-- JavaScript word character, the regex class backslash-w: ASCII letters,
digits and underscore. -/
def isJsWordChar (c : Char) : Bool := c.isAlphanum || c == '_'

/-- JavaScript whitespace, the regex class backslash-s (ASCII fragment). -/
def isJsSpace (c : Char) : Bool :=
  c == ' ' || c == '\t' || c == '\n' || c == '\r' || c == '\x0b' || c == '\x0c'

/-- Embedding of the global regex replacement
`filter.replace(re, '')` in `parseSearchFilter`, where the regex is the
four-character SEQUENCE: one non-word character, one whitespace character,
a double quote, a colon.  A global replace scans left to right; on a match
it removes the four characters and resumes after them, otherwise it keeps
one character and advances. -/
def seqMatch (l : List Char) : Bool :=
  match l with
  | c :: b :: q :: col :: _ =>
    !isJsWordChar c && isJsSpace b && q == '"' && col == ':'
  | _ => false

def stripSeqGo : Nat → List Char → List Char
  | 0, l => l
  | fuel + 1, l =>
    match l with
    | [] => []
    | c :: rest =>
      if seqMatch (c :: rest) then stripSeqGo fuel (rest.drop 3)
      else c :: stripSeqGo fuel rest

/-- The scan is run with fuel `l.length`; each step consumes at least one
character, so the fuel never runs out. -/
def stripSeq (l : List Char) : List Char := stripSeqGo l.length l

/-- Tokenizer of the search-query-parser model: split on JS whitespace,
dropping empty tokens.  `acc` is the current token, reversed. -/
def sqpTokensAux : List Char → List Char → List (List Char)
  | [], acc => if acc.isEmpty then [] else [acc.reverse]
  | c :: rest, acc =>
    if isJsSpace c then
      if acc.isEmpty then sqpTokensAux rest []
      else acc.reverse :: sqpTokensAux rest []
    else sqpTokensAux rest (c :: acc)

def sqpTokens (l : List Char) : List (List Char) := sqpTokensAux l []

/-- Split a token at its first colon into key and value; `none` when the
token holds no colon (a plain text token). -/
def sqpKeyVal (t : List Char) : Option (List Char × List Char) :=
  if ':' ∈ t then
    some (t.takeWhile (· != ':'), (t.dropWhile (· != ':')).drop 1)
  else none

/-- Remove one surrounding double quote from each end of a value,
mirroring the library's quote stripping. -/
def stripQuotesL (v : List Char) : List Char :=
  let v1 := match v with
    | '"' :: rest => rest
    | _ => v
  match v1.getLast? with
  | some '"' => v1.dropLast
  | _ => v1

/-- Offsets entry of the search-query-parser result: either a recognized
keyword token (with its value) or a plain text token. -/
inductive SQPOffset where
  | keywordOff (keyword : String) (value : String)
  | textOff (text : String)
deriving DecidableEq, Repr

/-- The keywords configured at the call site in `parseSearchFilter`. -/
def sqpKeywords : List String := ["subscription"]

/-- Modelled from the spec: the third-party `search-query-parser` library
(not under src/) invoked as `parse(searchFilter, { keywords:
['subscription'], tokenize: true })`.  Per the spec it tokenizes the
filter with a keyword-aware grammar recognizing the single keyword
`subscription`: whitespace-separated tokens of the form `key:value` whose
key is a configured keyword become keyword offsets (surrounding double
quotes of the value removed); every other token is a text offset. -/
def sqpOffsets (s : String) : List SQPOffset :=
  (sqpTokens s.data).map fun t =>
    match sqpKeyVal t with
    | some (k, v) =>
      if String.mk k ∈ sqpKeywords then
        SQPOffset.keywordOff (String.mk k) (String.mk (stripQuotesL v))
      else SQPOffset.textOff (String.mk t)
    | none => SQPOffset.textOff (String.mk t)

/-- Parsed, structured form of a raw filter string (`SearchFilter`). -/
structure SearchFilter where
  subscriptionFilter : Option String := none
deriving DecidableEq, Repr

/-- The source's `offsets.filter((offset) => 'keyword' in offset)` step:
keep only keyword offsets, as keyword/value pairs. -/
def offsetKeyword : SQPOffset → Option (String × String)
  | SQPOffset.keywordOff k v => some (k, v)
  | SQPOffset.textOff _ => none

/-- One step of the source's `for (const keyword of keywords) switch
(keyword.keyword) { case 'subscription': result.subscriptionFilter =
keyword.value }` loop. -/
def applyKeyword (r : SearchFilter) (kv : String × String) : SearchFilter :=
  match kv.1 with
  | "subscription" => { r with subscriptionFilter := some kv.2 }
  | _ => r

/-- Embedding of `parseSearchFilter`.  A falsy (empty) filter, or one
whose regex-stripped form is falsy or the single character `*`, yields the
empty SearchFilter; otherwise the stripped form is parsed and every
recognized `subscription` keyword overwrites `subscriptionFilter`. -/
def parseSearchFilter (filter : String) : SearchFilter :=
  if filter = "" then {}
  else
    let s := String.mk (stripSeq filter.data)
    if s = "" ∨ s = "*" then {}
    else ((sqpOffsets s).filterMap offsetKeyword).foldl applyKeyword {}

/-- Modelled from the spec: `PubSubData`, the triggering event (its
declaration lives outside src/): an optional item identifier and an
optional subscription name. -/
structure PubSubData where
  id : Option String := none
  subscription : Option String := none
deriving DecidableEq, Repr

/-- JavaScript truthiness of an optional string: false for undefined and
for the empty string. -/
def strTruthy : Option String → Bool
  | none => false
  | some s => s != ""

/-- Embedding of `isValidSubscription`: `if (!data.subscription) return
false; return subscriptionFilter === '*' || data.subscription ===
subscriptionFilter`. -/
def isValidSubscription (subscriptionFilter : String) (data : PubSubData) : Bool :=
  match data.subscription with
  | none => false
  | some t =>
    if t = "" then false
    else subscriptionFilter == "*" || t == subscriptionFilter

/-- Embedding of `isValidData`: the guard `if
(searchFilter.subscriptionFilter)` is JS truthiness, so an unset or
empty-string subscriptionFilter falls through to `return true`. -/
def isValidData (filter : String) (data : PubSubData) : Bool :=
  match (parseSearchFilter filter).subscriptionFilter with
  | some s => if s = "" then true else isValidSubscription s data
  | none => true

/-- Action type tags (`RuleActionType`). -/
inductive RuleActionType where
  | AddLabel
  | Archive
  | MarkAsRead
  | SendNotification
deriving DecidableEq, Repr

/-- A rule action (`RuleAction`): a type tag and its string parameters. -/
structure RuleAction where
  type : RuleActionType
  params : List String
deriving DecidableEq, Repr

/-- A stored rule (`Rule`).  `Date` timestamps are modelled as naturals. -/
structure Rule where
  id : String
  userId : String
  name : String
  filter : String
  actions : List RuleAction
  description : Option String := none
  enabled : Bool
  createdAt : Nat
  updatedAt : Nat
deriving DecidableEq, Repr

/-- Modelled from the spec: the opaque external operations the dispatcher
awaits (`getAuthToken`, `addLabels`, `archivePage`, `markPageAsRead`,
`sendNotification` live outside src/; the spec treats them as black-box
remote calls).  Each constructor records the arguments of one call. -/
inductive ExtCall where
  | getAuthTokenCall (userId jwtSecret : String)
  | addLabelsCall (apiEndpoint authToken pageId : String) (labels : List String)
  | archivePageCall (apiEndpoint authToken pageId : String)
  | markPageAsReadCall (apiEndpoint authToken pageId : String)
  | sendNotificationCall (apiEndpoint authToken message : String)
deriving DecidableEq, Repr

/-- Whether a call is an auth-token fetch. -/
def ExtCall.isAuth : ExtCall → Bool
  | ExtCall.getAuthTokenCall _ _ => true
  | _ => false

/-- Observable state of a run: the external calls attempted so far in
order, the console diagnostics, the number of external calls made, and
whether an awaited call has rejected (after which the whole async run is
aborted and nothing further executes). -/
structure ExecState where
  trace : List ExtCall := []
  logs : List String := []
  ncalls : Nat := 0
  failed : Bool := false
deriving DecidableEq, Repr

/-- An environment assigns each external call (by index) a result: `.ok v`
for a fulfilled promise (`v` is the returned token for auth calls, ignored
otherwise) or `.error ()` for a rejection. -/
def Env : Type := Nat → Except Unit String

/-- The all-success environment: every call fulfills, tokens are "tok". -/
def envOk : Env := fun _ => Except.ok "tok"

/-- Perform (await) one external call.  A rejection marks the run failed;
once failed, no code of `triggerActions` runs any more, so every later
operation is the identity. -/
def extCall (env : Env) (c : ExtCall) (s : ExecState) : ExecState × String :=
  if s.failed then (s, "") else
  match env s.ncalls with
  | Except.ok v =>
    ({ s with trace := s.trace ++ [c], ncalls := s.ncalls + 1 }, v)
  | Except.error _ =>
    ({ s with trace := s.trace ++ [c], ncalls := s.ncalls + 1, failed := true }, "")

/-- Embedding of one iteration of the inner `switch (action.type)` of
`triggerActions`: precondition checks (`!data.id`,
`action.params.length === 0`) use JS truthiness, a failed check logs and
continues, a passing check awaits the corresponding external call;
SendNotification awaits one call per params entry in order. -/
def runAction (env : Env) (apiEndpoint : String) (data : PubSubData)
    (authToken : String) (action : RuleAction) (s : ExecState) : ExecState :=
  if s.failed then s else
  match action.type with
  | RuleActionType.AddLabel =>
    if !strTruthy data.id || action.params.isEmpty then
      { s with logs := s.logs ++ ["invalid data for add label action"] }
    else
      (extCall env (ExtCall.addLabelsCall apiEndpoint authToken (data.id.getD "")
        action.params) s).1
  | RuleActionType.Archive =>
    if !strTruthy data.id then
      { s with logs := s.logs ++ ["invalid data for archive action"] }
    else
      (extCall env (ExtCall.archivePageCall apiEndpoint authToken (data.id.getD "")) s).1
  | RuleActionType.MarkAsRead =>
    if !strTruthy data.id then
      { s with logs := s.logs ++ ["invalid data for mark as read action"] }
    else
      (extCall env (ExtCall.markPageAsReadCall apiEndpoint authToken (data.id.getD "")) s).1
  | RuleActionType.SendNotification =>
    action.params.foldl
      (fun st m => (extCall env (ExtCall.sendNotificationCall apiEndpoint authToken m) st).1) s

/-- Embedding of one iteration of the outer `for (const rule of rules)`
loop of `triggerActions`: skip the rule when its filter does not match,
otherwise await one fresh auth token and run the rule's actions in list
order with it. -/
def runRule (env : Env) (apiEndpoint userId jwtSecret : String) (data : PubSubData)
    (rule : Rule) (s : ExecState) : ExecState :=
  if s.failed then s else
  if !isValidData rule.filter data then s
  else
    let auth := extCall env (ExtCall.getAuthTokenCall userId jwtSecret) s
    rule.actions.foldl (fun st a => runAction env apiEndpoint data auth.2 a st) auth.1

/-- Embedding of `triggerActions(userId, rules, data, apiEndpoint,
jwtSecret)`. -/
def triggerActions (env : Env) (userId : String) (rules : List Rule)
    (data : PubSubData) (apiEndpoint jwtSecret : String) : ExecState :=
  rules.foldl (fun s r => runRule env apiEndpoint userId jwtSecret data r s) {}

/-- The `rules` object inside the GraphQL payload: an error-code response
carries `errorCodes` and no `rules` list; a success response carries the
`rules` list. -/
structure RulesObj where
  errorCodes : Option (List String) := none
  rules : Option (List Rule) := none
deriving DecidableEq, Repr

/-- The GraphQL `data` payload of the Rule Store response:
`response.data.data.rules`, absent when the response is malformed. -/
structure GqlData where
  rules : Option RulesObj := none
deriving DecidableEq, Repr

/-- Ways `getEnabledRules` can fail: the awaited `getAuthToken` rejecting,
the awaited `axios.post` rejecting, or the property access
`response.data.data.rules.rules` throwing a TypeError because an
intermediate object is undefined. -/
inductive RulesQueryError where
  | authFailure
  | httpFailure
  | typeError
deriving DecidableEq, Repr

/-- Embedding of `getEnabledRules`.  `auth` is the result of the awaited
`getAuthToken` call and `post` the result of the awaited `axios.post`
(given the token; `none` inside `.ok` models a response whose
`data.data` is missing/null).  The body has no catch, so any of the three
failures propagates; reading `.rules` on a present rules object that has
no `rules` field yields undefined, returned normally (`.ok none`). -/
def getEnabledRules (auth : Except Unit String)
    (post : String → Except Unit (Option GqlData)) :
    Except RulesQueryError (Option (List Rule)) :=
  match auth with
  | Except.error _ => Except.error RulesQueryError.authFailure
  | Except.ok a =>
    match post a with
    | Except.error _ => Except.error RulesQueryError.httpFailure
    | Except.ok respData =>
      match respData with
      | none => Except.error RulesQueryError.typeError
      | some gd =>
        match gd.rules with
        | none => Except.error RulesQueryError.typeError
        | some ro => Except.ok ro.rules

theorem extCall_failed_id (env : Env) (c : ExtCall) {s : ExecState}
    (h : s.failed = true) : extCall env c s = (s, "") := by
  simp [extCall, h]

theorem runAction_failed_id (env : Env) (ep : String) (d : PubSubData) (tok : String)
    (a : RuleAction) {s : ExecState} (h : s.failed = true) :
    runAction env ep d tok a s = s := by
  simp [runAction, h]

theorem foldActions_failed_id (env : Env) (ep : String) (d : PubSubData) (tok : String)
    (acts : List RuleAction) {s : ExecState} (h : s.failed = true) :
    acts.foldl (fun st a => runAction env ep d tok a st) s = s := by
  induction acts with
  | nil => rfl
  | cons a rest ih => rw [List.foldl_cons, runAction_failed_id env ep d tok a h, ih]

theorem runRule_failed_id (env : Env) (ep uid sec : String) (d : PubSubData)
    (r : Rule) {s : ExecState} (h : s.failed = true) :
    runRule env ep uid sec d r s = s := by
  simp [runRule, h]

theorem foldRules_failed_id (env : Env) (ep uid sec : String) (d : PubSubData)
    (rules : List Rule) {s : ExecState} (h : s.failed = true) :
    rules.foldl (fun st r => runRule env ep uid sec d r st) s = s := by
  induction rules with
  | nil => rfl
  | cons r rest ih => rw [List.foldl_cons, runRule_failed_id env ep uid sec d r h, ih]

theorem extCall_envOk (c : ExtCall) {s : ExecState} (h : s.failed = false) :
    extCall envOk c s =
      ({ s with trace := s.trace ++ [c], ncalls := s.ncalls + 1 }, "tok") := by
  simp [extCall, envOk, h]

theorem sendFold_envOk (ep tok : String) (params : List String) :
    ∀ (s : ExecState), s.failed = false →
      params.foldl
        (fun st m => (extCall envOk (ExtCall.sendNotificationCall ep tok m) st).1) s =
      { s with trace := s.trace ++ params.map (ExtCall.sendNotificationCall ep tok),
               ncalls := s.ncalls + params.length } := by
  induction params with
  | nil => intro s _; simp
  | cons m rest ih =>
    intro s h
    simp only [List.foldl_cons, extCall_envOk (ExtCall.sendNotificationCall ep tok m) h]
    rw [ih { s with trace := s.trace ++ [ExtCall.sendNotificationCall ep tok m],
                    ncalls := s.ncalls + 1 } h]
    have hn : s.ncalls + 1 + rest.length = s.ncalls + (rest.length + 1) := by omega
    simp [hn, List.append_assoc]

theorem extCall_envOk_failed (c : ExtCall) (s : ExecState) :
    ((extCall envOk c s).1).failed = s.failed := by
  cases hs : s.failed with
  | true => rw [extCall_failed_id envOk c hs, hs]
  | false => rw [extCall_envOk c hs]; exact hs

theorem sendFold_envOk_failed (ep tok : String) (params : List String) :
    ∀ s : ExecState,
      ((params.foldl
        (fun st m => (extCall envOk (ExtCall.sendNotificationCall ep tok m) st).1) s).failed
       = s.failed) := by
  induction params with
  | nil => intro s; rfl
  | cons m rest ih =>
    intro s
    simp only [List.foldl_cons]
    rw [ih, extCall_envOk_failed]

theorem runAction_envOk_failed (ep : String) (d : PubSubData) (tok : String)
    (a : RuleAction) (s : ExecState) :
    (runAction envOk ep d tok a s).failed = s.failed := by
  cases hs : s.failed with
  | true => rw [runAction_failed_id envOk ep d tok a hs, hs]
  | false =>
    rcases a with ⟨ty, params⟩
    cases ty <;> simp only [runAction, hs, Bool.false_eq_true, if_false]
    case AddLabel =>
      split
      · rfl
      · rw [extCall_envOk_failed]; exact hs
    case Archive =>
      split
      · rfl
      · rw [extCall_envOk_failed]; exact hs
    case MarkAsRead =>
      split
      · rfl
      · rw [extCall_envOk_failed]; exact hs
    case SendNotification =>
      rw [sendFold_envOk_failed]; exact hs

theorem foldActions_envOk_failed (ep : String) (d : PubSubData) (tok : String)
    (acts : List RuleAction) : ∀ s : ExecState,
    ((acts.foldl (fun st a => runAction envOk ep d tok a st) s).failed = s.failed) := by
  induction acts with
  | nil => intro s; rfl
  | cons a rest ih =>
    intro s
    simp only [List.foldl_cons]
    rw [ih, runAction_envOk_failed]

theorem runRule_unmatched (env : Env) (ep uid sec : String) (d : PubSubData)
    (r : Rule) (s : ExecState) (hm : isValidData r.filter d = false) :
    runRule env ep uid sec d r s = s := by
  cases hs : s.failed with
  | true => exact runRule_failed_id env ep uid sec d r hs
  | false => simp [runRule, hs, hm]

theorem runRule_envOk_failed (ep uid sec : String) (d : PubSubData)
    (r : Rule) (s : ExecState) :
    (runRule envOk ep uid sec d r s).failed = s.failed := by
  cases hs : s.failed with
  | true => rw [runRule_failed_id envOk ep uid sec d r hs, hs]
  | false =>
    cases hm : isValidData r.filter d with
    | false => rw [runRule_unmatched envOk ep uid sec d r s hm, hs]
    | true =>
      simp only [runRule, hs, Bool.false_eq_true, if_false, hm, Bool.not_true]
      rw [foldActions_envOk_failed, extCall_envOk_failed, hs]

theorem extCall_trace_ext (env : Env) (c : ExtCall) (s : ExecState)
    (hc : c.isAuth = false) :
    ∃ t, ((extCall env c s).1).trace = s.trace ++ t ∧ t.countP ExtCall.isAuth = 0 := by
  cases hs : s.failed with
  | true => exact ⟨[], by rw [extCall_failed_id env c hs]; simp, rfl⟩
  | false =>
    cases henv : env s.ncalls with
    | ok v => exact ⟨[c], by simp [extCall, hs, henv], by simp [hc]⟩
    | error e => exact ⟨[c], by simp [extCall, hs, henv], by simp [hc]⟩

theorem sendFold_trace_ext (env : Env) (ep tok : String) (params : List String) :
    ∀ s : ExecState, ∃ t,
      ((params.foldl
        (fun st m => (extCall env (ExtCall.sendNotificationCall ep tok m) st).1) s).trace
        = s.trace ++ t) ∧ t.countP ExtCall.isAuth = 0 := by
  induction params with
  | nil => intro s; exact ⟨[], by simp, rfl⟩
  | cons m rest ih =>
    intro s
    obtain ⟨t1, h1, c1⟩ := extCall_trace_ext env (ExtCall.sendNotificationCall ep tok m) s rfl
    obtain ⟨t2, h2, c2⟩ := ih ((extCall env (ExtCall.sendNotificationCall ep tok m) s).1)
    refine ⟨t1 ++ t2, ?_, ?_⟩
    · simp only [List.foldl_cons]
      rw [h2, h1, List.append_assoc]
    · simp [List.countP_append, c1, c2]

theorem runAction_trace_ext (env : Env) (ep : String) (d : PubSubData) (tok : String)
    (a : RuleAction) (s : ExecState) :
    ∃ t, (runAction env ep d tok a s).trace = s.trace ++ t
      ∧ t.countP ExtCall.isAuth = 0 := by
  cases hs : s.failed with
  | true => exact ⟨[], by rw [runAction_failed_id env ep d tok a hs]; simp, rfl⟩
  | false =>
    rcases a with ⟨ty, params⟩
    cases ty
    case AddLabel =>
      simp only [runAction, hs, Bool.false_eq_true, if_false]
      split
      · exact ⟨[], by simp, rfl⟩
      · exact extCall_trace_ext env _ s rfl
    case Archive =>
      simp only [runAction, hs, Bool.false_eq_true, if_false]
      split
      · exact ⟨[], by simp, rfl⟩
      · exact extCall_trace_ext env _ s rfl
    case MarkAsRead =>
      simp only [runAction, hs, Bool.false_eq_true, if_false]
      split
      · exact ⟨[], by simp, rfl⟩
      · exact extCall_trace_ext env _ s rfl
    case SendNotification =>
      simp only [runAction, hs, Bool.false_eq_true, if_false]
      exact sendFold_trace_ext env ep tok params s

theorem foldActions_trace_ext (env : Env) (ep : String) (d : PubSubData) (tok : String)
    (acts : List RuleAction) : ∀ s : ExecState, ∃ t,
      ((acts.foldl (fun st a => runAction env ep d tok a st) s).trace = s.trace ++ t)
      ∧ t.countP ExtCall.isAuth = 0 := by
  induction acts with
  | nil => intro s; exact ⟨[], by simp, rfl⟩
  | cons a rest ih =>
    intro s
    obtain ⟨t1, h1, c1⟩ := runAction_trace_ext env ep d tok a s
    obtain ⟨t2, h2, c2⟩ := ih (runAction env ep d tok a s)
    exact ⟨t1 ++ t2, by simp only [List.foldl_cons]; rw [h2, h1, List.append_assoc],
      by simp [List.countP_append, c1, c2]⟩

theorem runRule_matched_trace (env : Env) (ep uid sec : String) (d : PubSubData)
    (r : Rule) (s : ExecState) (hm : isValidData r.filter d = true)
    (hf : s.failed = false) :
    ∃ t, (runRule env ep uid sec d r s).trace
        = s.trace ++ ExtCall.getAuthTokenCall uid sec :: t
      ∧ t.countP ExtCall.isAuth = 0 := by
  simp only [runRule, hf, Bool.false_eq_true, if_false, hm, Bool.not_true]
  cases henv : env s.ncalls with
  | ok v =>
    have hcall : extCall env (ExtCall.getAuthTokenCall uid sec) s =
        ({ s with trace := s.trace ++ [ExtCall.getAuthTokenCall uid sec],
                  ncalls := s.ncalls + 1 }, v) := by
      simp [extCall, hf, henv]
    rw [hcall]
    obtain ⟨t, ht, hc⟩ := foldActions_trace_ext env ep d v r.actions
      { s with trace := s.trace ++ [ExtCall.getAuthTokenCall uid sec],
               ncalls := s.ncalls + 1 }
    exact ⟨t, by rw [ht]; simp, hc⟩
  | error e =>
    have hcall : extCall env (ExtCall.getAuthTokenCall uid sec) s =
        ({ s with trace := s.trace ++ [ExtCall.getAuthTokenCall uid sec],
                  ncalls := s.ncalls + 1, failed := true }, "") := by
      simp [extCall, hf, henv]
    rw [hcall]
    rw [foldActions_failed_id env ep d "" r.actions rfl]
    exact ⟨[], by simp, rfl⟩

theorem runRule_matched_authCount (env : Env) (ep uid sec : String) (d : PubSubData)
    (r : Rule) (s : ExecState) (hm : isValidData r.filter d = true)
    (hf : s.failed = false) :
    ((runRule env ep uid sec d r s).trace.countP ExtCall.isAuth)
      = s.trace.countP ExtCall.isAuth + 1 := by
  obtain ⟨t, ht, hc⟩ := runRule_matched_trace env ep uid sec d r s hm hf
  rw [ht]
  simp [List.countP_append, List.countP_cons, hc, ExtCall.isAuth]

theorem foldRules_envOk_authCount (ep uid sec : String) (d : PubSubData)
    (rules : List Rule) : ∀ s : ExecState, s.failed = false →
    ((rules.foldl (fun st r => runRule envOk ep uid sec d r st) s).trace.countP
        ExtCall.isAuth)
      = s.trace.countP ExtCall.isAuth
        + (rules.filter (fun r => isValidData r.filter d)).length := by
  induction rules with
  | nil => intro s _; simp
  | cons r rest ih =>
    intro s h
    simp only [List.foldl_cons]
    cases hm : isValidData r.filter d with
    | false =>
      rw [runRule_unmatched envOk ep uid sec d r s hm, ih s h]
      simp [List.filter_cons, hm]
    | true =>
      have h2 : (runRule envOk ep uid sec d r s).failed = false := by
        rw [runRule_envOk_failed]; exact h
      rw [ih _ h2, runRule_matched_authCount envOk ep uid sec d r s hm h]
      simp only [List.filter_cons, hm, if_true]
      simp only [List.length_cons]
      omega

theorem stripSeqGo_mem : ∀ (fuel : Nat) (l : List Char) (c : Char),
    c ∈ stripSeqGo fuel l → c ∈ l := by
  intro fuel
  induction fuel with
  | zero =>
    intro l c hc
    rw [stripSeqGo] at hc
    exact hc
  | succ n ih =>
    intro l c hc
    cases l with
    | nil => simp [stripSeqGo] at hc
    | cons a rest =>
      rw [stripSeqGo] at hc
      split at hc
      · exact List.mem_cons.2 (Or.inr (List.drop_subset 3 rest (ih _ c hc)))
      · rcases List.mem_cons.1 hc with h | h
        · simp [h]
        · exact List.mem_cons.2 (Or.inr (ih _ c h))

theorem stripSeq_mem (l : List Char) (c : Char) (hc : c ∈ stripSeq l) : c ∈ l :=
  stripSeqGo_mem l.length l c hc

theorem mem_of_mem_takeWhile {p : Char → Bool} :
    ∀ (l : List Char) (c : Char), c ∈ l.takeWhile p → c ∈ l := by
  intro l
  induction l with
  | nil => intro c hc; simp [List.takeWhile] at hc
  | cons a rest ih =>
    intro c hc
    rw [List.takeWhile] at hc
    cases hp : p a with
    | true =>
      rw [hp] at hc
      rcases List.mem_cons.1 hc with h | h
      · simp [h]
      · exact List.mem_cons.2 (Or.inr (ih c h))
    | false => rw [hp] at hc; simp at hc

theorem sqpTokensAux_mem : ∀ (l acc tok : List Char),
    tok ∈ sqpTokensAux l acc → ∀ c ∈ tok, c ∈ l ∨ c ∈ acc := by
  intro l
  induction l with
  | nil =>
    intro acc tok htok c hc
    rw [sqpTokensAux] at htok
    split at htok
    · simp at htok
    · rw [List.mem_singleton] at htok
      subst htok
      exact Or.inr (List.mem_reverse.1 hc)
  | cons c0 rest ih =>
    intro acc tok htok c hc
    rw [sqpTokensAux] at htok
    split at htok
    · split at htok
      · rcases ih [] tok htok c hc with h | h
        · exact Or.inl (List.mem_cons.2 (Or.inr h))
        · simp at h
      · rcases List.mem_cons.1 htok with h | h
        · subst h
          exact Or.inr (List.mem_reverse.1 hc)
        · rcases ih [] tok h c hc with h2 | h2
          · exact Or.inl (List.mem_cons.2 (Or.inr h2))
          · simp at h2
    · rcases ih (c0 :: acc) tok htok c hc with h | h
      · exact Or.inl (List.mem_cons.2 (Or.inr h))
      · rcases List.mem_cons.1 h with h2 | h2
        · exact Or.inl (List.mem_cons.2 (Or.inl h2))
        · exact Or.inr h2

theorem sqpOffsets_no_keyword (str : String)
    (halpha : ∀ c ∈ str.data, c = '*' ∨ isJsSpace c = true ∨ c = '"' ∨ c = ':') :
    (sqpOffsets str).filterMap offsetKeyword = [] := by
  rw [List.filterMap_eq_nil_iff]
  intro o ho
  rw [sqpOffsets, List.mem_map] at ho
  obtain ⟨t, ht, rfl⟩ := ho
  have htchars : ∀ c ∈ t, c = '*' ∨ isJsSpace c = true ∨ c = '"' ∨ c = ':' := by
    intro c hc
    rcases sqpTokensAux_mem str.data [] t ht c hc with h | h
    · exact halpha c h
    · simp at h
  cases hkv : sqpKeyVal t with
  | none => simp [hkv, offsetKeyword]
  | some kv =>
    rcases kv with ⟨k, v⟩
    simp only [hkv]
    by_cases hk : String.mk k ∈ sqpKeywords
    · exfalso
      have hks : String.mk k = "subscription" := by simpa [sqpKeywords] using hk
      have hkd : k = "subscription".data := by
        have h2 : (String.mk k).data = ("subscription" : String).data := by rw [hks]
        exact h2
      have hs : 's' ∈ k := by rw [hkd]; decide
      have hkt : k = t.takeWhile (· != ':') := by
        rw [sqpKeyVal] at hkv
        split at hkv
        · simp only [Option.some.injEq, Prod.mk.injEq] at hkv
          exact hkv.1.symm
        · simp at hkv
      have hst : 's' ∈ t := mem_of_mem_takeWhile t 's' (hkt ▸ hs)
      have := htchars 's' hst
      revert this
      decide
    · simp [hk, offsetKeyword]

theorem applyKeyword_ne (r : SearchFilter) (kv : String × String)
    (hk : ¬ kv.1 = "subscription") : applyKeyword r kv = r := by
  rcases kv with ⟨k1, v1⟩
  unfold applyKeyword
  split
  · simp_all
  · rfl

theorem foldl_applyKeyword (ks : List (String × String)) : ∀ r : SearchFilter,
    ks.foldl applyKeyword r =
      match (ks.filter (fun kv => kv.1 == "subscription")).getLast? with
      | some kv => { subscriptionFilter := some kv.2 }
      | none => r := by
  induction ks with
  | nil => intro r; rfl
  | cons kv rest ih =>
    intro r
    rw [List.foldl_cons, ih (applyKeyword r kv)]
    by_cases hk : kv.1 = "subscription"
    · have happ : applyKeyword r kv = { subscriptionFilter := some kv.2 } := by
        rcases kv with ⟨k1, v1⟩
        simp only at hk
        subst hk
        rfl
      rw [List.filter_cons, if_pos (by simp [hk])]
      rcases hl : rest.filter (fun kv => kv.1 == "subscription") with _ | ⟨x, xs⟩
      · rw [hl, happ]; rfl
      · rw [hl, List.getLast?_cons_cons]
        cases hgl : (x :: xs).getLast? with
        | none => simp at hgl
        | some y => rfl
    · have happ : applyKeyword r kv = r := applyKeyword_ne r kv hk
      rw [List.filter_cons, if_neg (by simp [hk]), happ]

theorem parseSearchFilter_trivial (f : String)
    (h : f = "" ∨ String.mk (stripSeq f.data) = "" ∨ String.mk (stripSeq f.data) = "*") :
    parseSearchFilter f = {} := by
  rcases h with h | h
  · rw [h]; rfl
  · by_cases hf : f = ""
    · rw [hf]; rfl
    · simp only [parseSearchFilter]
      rw [if_neg hf, if_pos h]

theorem parseSearchFilter_offsets (f : String) (hf : ¬ f = "")
    (h1 : ¬ String.mk (stripSeq f.data) = "")
    (h2 : ¬ String.mk (stripSeq f.data) = "*") :
    parseSearchFilter f =
      ((sqpOffsets (String.mk (stripSeq f.data))).filterMap offsetKeyword).foldl
        applyKeyword {} := by
  simp only [parseSearchFilter]
  rw [if_neg hf, if_neg (not_or.mpr ⟨h1, h2⟩)]

theorem parseSearchFilter_alphabet (f : String)
    (halpha : ∀ c ∈ f.data, c = '*' ∨ isJsSpace c = true ∨ c = '"' ∨ c = ':') :
    parseSearchFilter f = {} := by
  by_cases hf : f = ""
  · rw [hf]; rfl
  · by_cases h12 : String.mk (stripSeq f.data) = "" ∨ String.mk (stripSeq f.data) = "*"
    · exact parseSearchFilter_trivial f (Or.inr h12)
    · rw [parseSearchFilter_offsets f hf (fun h => h12 (Or.inl h))
        (fun h => h12 (Or.inr h))]
      rw [sqpOffsets_no_keyword]
      · rfl
      · intro c hc
        exact halpha c (stripSeq_mem f.data c hc)

theorem isValidData_iff (f : String) (e : PubSubData) (s : String)
    (hs : (parseSearchFilter f).subscriptionFilter = some s) (hne : ¬ s = "") :
    (isValidData f e = true ↔
      ∃ t, e.subscription = some t ∧ ¬ t = "" ∧ (s = "*" ∨ t = s)) := by
  rw [isValidData, hs]
  simp only [if_neg hne]
  rw [isValidSubscription]
  cases hsub : e.subscription with
  | none => simp
  | some t =>
    by_cases ht : t = ""
    · subst ht
      simp
    · simp only [if_neg ht, Bool.or_eq_true, beq_iff_eq]
      constructor
      · intro h
        exact ⟨t, rfl, ht, by tauto⟩
      · rintro ⟨t2, ht2, -, h⟩
        injection ht2 with ht2
        subst ht2
        tauto

/-- C3: for every filter string that is empty, or that reduces to the single
character `*` after removing every character in the set {word-boundary,
whitespace, quote, colon} (a word boundary is zero-width, so the characters
removed are whitespace, quote and colon), parsing yields an empty
SearchFilter and hence `isValidData` accepts every event. -/
theorem claimC3_empty_or_star_matches_all (f : String) (e : PubSubData)
    (h : f = "" ∨
      f.data.filter (fun c => !(isJsSpace c || c == '"' || c == ':')) = ['*']) :
    parseSearchFilter f = {} ∧ isValidData f e = true := by
  have hparse : parseSearchFilter f = {} := by
    rcases h with h | h
    · exact parseSearchFilter_trivial f (Or.inl h)
    · apply parseSearchFilter_alphabet
      intro c hc
      by_cases hkeep : (isJsSpace c || c == '"' || c == ':') = true
      · have h2 : (isJsSpace c = true ∨ c = '"') ∨ c = ':' := by simpa using hkeep
        tauto
      · have hkeep2 : (!(isJsSpace c || c == '"' || c == ':')) = true := by
          cases hb : (isJsSpace c || c == '"' || c == ':') with
          | true => exact absurd hb hkeep
          | false => rfl
        have hmem : c ∈ f.data.filter (fun c => !(isJsSpace c || c == '"' || c == ':')) :=
          List.mem_filter.2 ⟨hc, hkeep2⟩
        rw [h] at hmem
        rw [List.mem_singleton] at hmem
        exact Or.inl hmem
  refine ⟨hparse, ?_⟩
  rw [isValidData, hparse]

/-- C3 witness: the filter `*:` strips (under the claim's character set) to
`*`, parses to the empty SearchFilter, and matches an event with no fields. -/
theorem claimC3_witness :
    parseSearchFilter "*:" = {} ∧
      isValidData "*:" { id := none, subscription := none } = true :=
  claimC3_empty_or_star_matches_all "*:" { id := none, subscription := none }
    (Or.inr (by decide))

/-- C4 counterexample: the claim's iff fails on the code in two ways.  The
filter `subscription:""` parses to a SET subscriptionFilter (the empty
string), yet isValidData is true for an event with NO subscription (the
claim requires false); the filter `subscription:*` parses to
subscriptionFilter `*`, yet isValidData is false for an event whose
subscription is present but empty (the claim requires true). -/
theorem claimC4_counterexample :
    ((parseSearchFilter "subscription:\"\"").subscriptionFilter = some "" ∧
      isValidData "subscription:\"\"" { id := none, subscription := none } = true) ∧
    ((parseSearchFilter "subscription:*").subscriptionFilter = some "*" ∧
      isValidData "subscription:*" { id := none, subscription := some "" } = false) := by
  decide

/-- C4 (amended): for every filter whose parse yields a truthy (set and
non-empty) subscriptionFilter s and every event e, isValidData is true iff
e.subscription is present and non-empty AND (s = `*` or it equals s by
exact case-sensitive comparison); and the claim's concrete examples hold:
`subscription:newsletter` matches subscription `newsletter`, does not
match `digest`, and does not match an event without subscription. -/
theorem claimC4_subscription_predicate :
    (∀ (f : String) (e : PubSubData) (s : String),
      (parseSearchFilter f).subscriptionFilter = some s → ¬ s = "" →
      (isValidData f e = true ↔
        ∃ t, e.subscription = some t ∧ ¬ t = "" ∧ (s = "*" ∨ t = s))) ∧
    isValidData "subscription:newsletter"
      { id := none, subscription := some "newsletter" } = true ∧
    isValidData "subscription:newsletter"
      { id := none, subscription := some "digest" } = false ∧
    isValidData "subscription:newsletter"
      { id := none, subscription := none } = false :=
  ⟨isValidData_iff, by decide, by decide, by decide⟩

/-- C4 witness: the general iff applied at filter `subscription:x` and an
event subscribed to `x`. -/
theorem claimC4_witness :
    isValidData "subscription:x" { id := none, subscription := some "x" } = true := by
  have h := claimC4_subscription_predicate.1 "subscription:x"
    { id := none, subscription := some "x" } "x" (by decide) (by decide)
  exact h.mpr ⟨"x", rfl, by decide, Or.inr rfl⟩

/-- C5: when the parse reaches the tokenizer (the filter is non-falsy and
its stripped form is neither falsy nor `*`), the resulting
subscriptionFilter is the value of the LAST recognized `subscription`
keyword occurrence, in token order — each occurrence overwrites the
previous capture. -/
theorem claimC5_last_occurrence_wins (f : String) (hf : ¬ f = "")
    (h1 : ¬ String.mk (stripSeq f.data) = "")
    (h2 : ¬ String.mk (stripSeq f.data) = "*") :
    parseSearchFilter f =
      { subscriptionFilter :=
          ((((sqpOffsets (String.mk (stripSeq f.data))).filterMap offsetKeyword).filter
            (fun kv => kv.1 == "subscription")).getLast?).map Prod.snd } := by
  rw [parseSearchFilter_offsets f hf h1 h2, foldl_applyKeyword]
  cases hgl : ((((sqpOffsets (String.mk (stripSeq f.data))).filterMap
      offsetKeyword).filter (fun kv => kv.1 == "subscription"))).getLast? with
  | some kv => rfl
  | none => rfl

/-- C5 witness: with two subscription keywords the later value wins. -/
theorem claimC5_witness :
    parseSearchFilter "subscription:a subscription:b" =
      { subscriptionFilter := some "b" } := by
  rw [claimC5_last_occurrence_wins "subscription:a subscription:b"
    (by decide) (by decide) (by decide)]
  decide

/-- C10: a captured subscription keyword whose value is the empty string
yields a falsy subscriptionFilter, so the guard in isValidData treats it
as unset and every event matches, including events with no subscription. -/
theorem claimC10_empty_value_matches_all (f : String) (e : PubSubData)
    (h : (parseSearchFilter f).subscriptionFilter = some "") :
    isValidData f e = true := by
  rw [isValidData, h]
  simp

/-- C10 witness: the filter `subscription:""` captures an empty value and
matches an event with no subscription field. -/
theorem claimC10_witness :
    isValidData "subscription:\"\"" { id := none, subscription := none } = true :=
  claimC10_empty_value_matches_all "subscription:\"\""
    { id := none, subscription := none } (by decide)

/-- C1 counterexample: two matching rules, the archive call of the first
rule's first action rejects (external call index 1 fails).  The run stops:
nothing is caught or logged, the remaining MarkAsRead action of rule 1
never runs and rule 2 never runs, contradicting the claimed per-action
isolation. -/
theorem claimC1_counterexample :
    (triggerActions (fun n => if n = 1 then Except.error () else Except.ok "tok")
        "u1"
        [Rule.mk "r1" "u1" "n1" ""
          [RuleAction.mk RuleActionType.Archive [],
           RuleAction.mk RuleActionType.MarkAsRead []] none true 0 0,
         Rule.mk "r2" "u1" "n2" ""
          [RuleAction.mk RuleActionType.MarkAsRead []] none true 0 0]
        { id := some "p1", subscription := none } "ep" "sec" =
      { trace := [ExtCall.getAuthTokenCall "u1" "sec",
                  ExtCall.archivePageCall "ep" "tok" "p1"],
        logs := [], ncalls := 2, failed := true }) ∧
    ExtCall.markPageAsReadCall "ep" "tok" "p1" ∉
      (triggerActions (fun n => if n = 1 then Except.error () else Except.ok "tok")
        "u1"
        [Rule.mk "r1" "u1" "n1" ""
          [RuleAction.mk RuleActionType.Archive [],
           RuleAction.mk RuleActionType.MarkAsRead []] none true 0 0,
         Rule.mk "r2" "u1" "n2" ""
          [RuleAction.mk RuleActionType.MarkAsRead []] none true 0 0]
        { id := some "p1", subscription := none } "ep" "sec").trace := by
  decide

/-- C1 (amended): a failing action call is NOT caught or logged; it marks
the run failed (recording only the failing call itself), and once the run
is failed every remaining action of the rule and every remaining rule is
skipped entirely. -/
theorem claimC1_action_failure_aborts :
    (∀ (env : Env) (c : ExtCall) (s : ExecState),
      s.failed = false → env s.ncalls = Except.error () →
      (extCall env c s).1 =
        { s with trace := s.trace ++ [c], ncalls := s.ncalls + 1, failed := true }) ∧
    (∀ (env : Env) (ep : String) (d : PubSubData) (tok : String) (a : RuleAction)
        (s : ExecState), s.failed = true → runAction env ep d tok a s = s) ∧
    (∀ (env : Env) (ep : String) (d : PubSubData) (tok : String)
        (acts : List RuleAction) (s : ExecState), s.failed = true →
      acts.foldl (fun st a => runAction env ep d tok a st) s = s) ∧
    (∀ (env : Env) (ep uid sec : String) (d : PubSubData) (rules : List Rule)
        (s : ExecState), s.failed = true →
      rules.foldl (fun st r => runRule env ep uid sec d r st) s = s) := by
  refine ⟨?_, ?_, ?_, ?_⟩
  · intro env c s hf henv
    simp [extCall, hf, henv]
  · intro env ep d tok a s hfail
    exact runAction_failed_id env ep d tok a hfail
  · intro env ep d tok acts s hfail
    exact foldActions_failed_id env ep d tok acts hfail
  · intro env ep uid sec d rules s hfail
    exact foldRules_failed_id env ep uid sec d rules hfail

/-- C1 witness: a rejecting call on the initial state is recorded as a
failure with exactly that one call attempted. -/
theorem claimC1_witness :
    (extCall (fun _ => Except.error ()) (ExtCall.archivePageCall "ep" "tok" "p1")
        {}).1 =
      { trace := [ExtCall.archivePageCall "ep" "tok" "p1"], logs := [],
        ncalls := 1, failed := true } :=
  claimC1_action_failure_aborts.1 (fun _ => Except.error ())
    (ExtCall.archivePageCall "ep" "tok" "p1") {} rfl rfl

/-- C2: a rejecting remote call is never caught in the core.  A failed
auth-token call or HTTP post makes getEnabledRules propagate the error
instead of returning a rule list; in triggerActions a rejecting call marks
the run failed right after recording that call, and a failed run executes
no remaining action of the current rule and no remaining rule. -/
theorem claimC2_remote_failure_propagates :
    (∀ post : String → Except Unit (Option GqlData),
      getEnabledRules (Except.error ()) post =
        Except.error RulesQueryError.authFailure) ∧
    (∀ a : String,
      getEnabledRules (Except.ok a) (fun _ => Except.error ()) =
        Except.error RulesQueryError.httpFailure) ∧
    (∀ (env : Env) (c : ExtCall) (s : ExecState),
      s.failed = false → env s.ncalls = Except.error () →
      ((extCall env c s).1.failed = true ∧
        (extCall env c s).1.trace = s.trace ++ [c])) ∧
    (∀ (env : Env) (ep : String) (d : PubSubData) (tok : String)
        (acts : List RuleAction) (s : ExecState), s.failed = true →
      acts.foldl (fun st a => runAction env ep d tok a st) s = s) ∧
    (∀ (env : Env) (ep uid sec : String) (d : PubSubData) (rules : List Rule)
        (s : ExecState), s.failed = true →
      rules.foldl (fun st r => runRule env ep uid sec d r st) s = s) := by
  refine ⟨?_, ?_, ?_, ?_, ?_⟩
  · intro post; rfl
  · intro a; rfl
  · intro env c s hf henv
    constructor <;> simp [extCall, hf, henv]
  · intro env ep d tok acts s hfail
    exact foldActions_failed_id env ep d tok acts hfail
  · intro env ep uid sec d rules s hfail
    exact foldRules_failed_id env ep uid sec d rules hfail

/-- C2 witness: a failed token issuance propagates out of getEnabledRules,
and a failed state makes the remaining rules a no-op. -/
theorem claimC2_witness :
    getEnabledRules (Except.error ()) (fun _ => Except.ok none) =
      Except.error RulesQueryError.authFailure ∧
    ([Rule.mk "r1" "u1" "n1" "" [] none true 0 0].foldl
      (fun st r => runRule envOk "ep" "u1" "sec" { id := none, subscription := none } r st)
      { trace := [], logs := [], ncalls := 0, failed := true }) =
      { trace := [], logs := [], ncalls := 0, failed := true } :=
  ⟨claimC2_remote_failure_propagates.1 (fun _ => Except.ok none),
   claimC2_remote_failure_propagates.2.2.2.2 envOk "ep" "u1" "sec"
     { id := none, subscription := none } [Rule.mk "r1" "u1" "n1" "" [] none true 0 0]
     { trace := [], logs := [], ncalls := 0, failed := true } rfl⟩

/-- C6 counterexample: an AddLabel action with a PRESENT but empty event
id and non-empty params is skipped with the diagnostic log and never calls
the label API, although the claim's precondition (id present, params
non-empty) holds and it demands exactly one invocation: the id check is JS
truthiness, not presence. -/
theorem claimC6_counterexample :
    (runAction envOk "ep" { id := some "", subscription := none } "tok"
        (RuleAction.mk RuleActionType.AddLabel ["x"]) {}).trace = [] ∧
    (runAction envOk "ep" { id := some "", subscription := none } "tok"
        (RuleAction.mk RuleActionType.AddLabel ["x"]) {}).logs =
      ["invalid data for add label action"] := by
  decide

/-- C6 (amended): for AddLabel, Archive and MarkAsRead the precondition is
a TRUTHY event id (present and non-empty), and AddLabel additionally needs
non-empty params.  A failed precondition logs the matching diagnostic and
makes no external call, for ANY environment; continuing with the next
action is unaffected.  On valid input the corresponding external operation
is invoked exactly once with the event id (and params for AddLabel). -/
theorem claimC6_precondition_dispatch :
    (∀ (env : Env) (ep : String) (d : PubSubData) (tok : String)
        (params : List String) (s : ExecState), s.failed = false →
      (strTruthy d.id = false ∨ params = []) →
      runAction env ep d tok (RuleAction.mk RuleActionType.AddLabel params) s =
        { s with logs := s.logs ++ ["invalid data for add label action"] }) ∧
    (∀ (env : Env) (ep : String) (d : PubSubData) (tok : String)
        (params : List String) (s : ExecState), s.failed = false →
      strTruthy d.id = false →
      runAction env ep d tok (RuleAction.mk RuleActionType.Archive params) s =
        { s with logs := s.logs ++ ["invalid data for archive action"] }) ∧
    (∀ (env : Env) (ep : String) (d : PubSubData) (tok : String)
        (params : List String) (s : ExecState), s.failed = false →
      strTruthy d.id = false →
      runAction env ep d tok (RuleAction.mk RuleActionType.MarkAsRead params) s =
        { s with logs := s.logs ++ ["invalid data for mark as read action"] }) ∧
    (∀ (ep : String) (d : PubSubData) (tok i : String) (params : List String)
        (s : ExecState), s.failed = false → d.id = some i → ¬ i = "" →
      ¬ params = [] →
      runAction envOk ep d tok (RuleAction.mk RuleActionType.AddLabel params) s =
        { s with trace := s.trace ++ [ExtCall.addLabelsCall ep tok i params],
                 ncalls := s.ncalls + 1 }) ∧
    (∀ (ep : String) (d : PubSubData) (tok i : String) (params : List String)
        (s : ExecState), s.failed = false → d.id = some i → ¬ i = "" →
      runAction envOk ep d tok (RuleAction.mk RuleActionType.Archive params) s =
        { s with trace := s.trace ++ [ExtCall.archivePageCall ep tok i],
                 ncalls := s.ncalls + 1 }) ∧
    (∀ (ep : String) (d : PubSubData) (tok i : String) (params : List String)
        (s : ExecState), s.failed = false → d.id = some i → ¬ i = "" →
      runAction envOk ep d tok (RuleAction.mk RuleActionType.MarkAsRead params) s =
        { s with trace := s.trace ++ [ExtCall.markPageAsReadCall ep tok i],
                 ncalls := s.ncalls + 1 }) := by
  refine ⟨?_, ?_, ?_, ?_, ?_, ?_⟩
  · intro env ep d tok params s hf hpre
    have hcond : (!strTruthy d.id || params.isEmpty) = true := by
      rcases hpre with h | h
      · simp [h]
      · simp [h]
    simp [runAction, hf, hcond]
  · intro env ep d tok params s hf hpre
    simp [runAction, hf, hpre]
  · intro env ep d tok params s hf hpre
    simp [runAction, hf, hpre]
  · intro ep d tok i params s hf hid hi hp
    rcases params with _ | ⟨p0, ps⟩
    · exact absurd rfl hp
    · have hst : strTruthy (some i) = true := by simpa [strTruthy] using hi
      simp [runAction, hf, hst, extCall, envOk, hid]
  · intro ep d tok i params s hf hid hi
    have hst : strTruthy (some i) = true := by simpa [strTruthy] using hi
    simp [runAction, hf, hst, extCall, envOk, hid]
  · intro ep d tok i params s hf hid hi
    have hst : strTruthy (some i) = true := by simpa [strTruthy] using hi
    simp [runAction, hf, hst, extCall, envOk, hid]

/-- C6 witness: AddLabel with empty params makes no call even with a valid
id; AddLabel with a valid id and params calls the label API once. -/
theorem claimC6_witness :
    (runAction envOk "ep" { id := some "p1", subscription := none } "tok"
        (RuleAction.mk RuleActionType.AddLabel []) {} =
      { trace := [], logs := ["invalid data for add label action"],
        ncalls := 0, failed := false }) ∧
    (runAction envOk "ep" { id := some "p1", subscription := none } "tok"
        (RuleAction.mk RuleActionType.AddLabel ["x"]) {} =
      { trace := [ExtCall.addLabelsCall "ep" "tok" "p1" ["x"]], logs := [],
        ncalls := 1, failed := false }) := by
  constructor
  · exact claimC6_precondition_dispatch.1 envOk "ep"
      { id := some "p1", subscription := none } "tok" [] {} rfl (Or.inr rfl)
  · exact claimC6_precondition_dispatch.2.2.2.1 "ep"
      { id := some "p1", subscription := none } "tok" "p1" ["x"] {} rfl rfl
      (by decide) (by decide)

/-- C7: SendNotification invokes the notification-send operation once per
string of `params`, sequentially in list order with the string as message
body, with no precondition on the event id (the event is arbitrary) and
nothing sent when params is empty; and the claim's concrete rule
dispatches add-label once, archive once, then the two notifications, in
that exact order. -/
theorem claimC7_dispatch_order :
    (∀ (ep : String) (tok : String) (d : PubSubData) (params : List String)
        (s : ExecState), s.failed = false →
      runAction envOk ep d tok (RuleAction.mk RuleActionType.SendNotification params) s =
        { s with trace := s.trace ++ params.map (ExtCall.sendNotificationCall ep tok),
                 ncalls := s.ncalls + params.length }) ∧
    triggerActions envOk "u1"
      [Rule.mk "r1" "u1" "n1" ""
        [RuleAction.mk RuleActionType.AddLabel ["x"],
         RuleAction.mk RuleActionType.Archive [],
         RuleAction.mk RuleActionType.SendNotification ["hi", "bye"]] none true 0 0]
      { id := some "p1", subscription := none } "ep" "sec" =
      { trace := [ExtCall.getAuthTokenCall "u1" "sec",
                  ExtCall.addLabelsCall "ep" "tok" "p1" ["x"],
                  ExtCall.archivePageCall "ep" "tok" "p1",
                  ExtCall.sendNotificationCall "ep" "tok" "hi",
                  ExtCall.sendNotificationCall "ep" "tok" "bye"],
        logs := [], ncalls := 5, failed := false } := by
  constructor
  · intro ep tok d params s hf
    simp only [runAction, hf, Bool.false_eq_true, if_false]
    rw [sendFold_envOk ep tok params s hf, hf]
  · decide

/-- C7 witness: the general SendNotification equation applied to a
parameter list of two messages and an event with NO id. -/
theorem claimC7_witness :
    runAction envOk "ep" { id := none, subscription := none } "tok"
        (RuleAction.mk RuleActionType.SendNotification ["m1", "m2"]) {} =
      { trace := [ExtCall.sendNotificationCall "ep" "tok" "m1",
                  ExtCall.sendNotificationCall "ep" "tok" "m2"],
        logs := [], ncalls := 2, failed := false } := by
  rw [claimC7_dispatch_order.1 "ep" "tok" { id := none, subscription := none }
    ["m1", "m2"] {} rfl]
  decide

/-- C8: a rule whose filter does not match causes no token fetch and no
call at all (the state is untouched); a matching rule fetches exactly one
fresh token, after the match check and before its actions (the auth call
precedes all calls of the rule's actions, which contain no further auth
call), and over a whole run the number of auth-token fetches equals the
number of matching rules. -/
theorem claimC8_token_per_matched_rule :
    (∀ (env : Env) (ep uid sec : String) (d : PubSubData) (r : Rule)
        (s : ExecState), isValidData r.filter d = false →
      runRule env ep uid sec d r s = s) ∧
    (∀ (env : Env) (ep uid sec : String) (d : PubSubData) (r : Rule)
        (s : ExecState), isValidData r.filter d = true → s.failed = false →
      ∃ t, (runRule env ep uid sec d r s).trace
          = s.trace ++ ExtCall.getAuthTokenCall uid sec :: t
        ∧ t.countP ExtCall.isAuth = 0) ∧
    (∀ (uid : String) (rules : List Rule) (d : PubSubData) (ep sec : String),
      ((triggerActions envOk uid rules d ep sec).trace.countP ExtCall.isAuth)
        = (rules.filter (fun r => isValidData r.filter d)).length) := by
  refine ⟨?_, ?_, ?_⟩
  · intro env ep uid sec d r s hm
    exact runRule_unmatched env ep uid sec d r s hm
  · intro env ep uid sec d r s hm hf
    exact runRule_matched_trace env ep uid sec d r s hm hf
  · intro uid rules d ep sec
    have h := foldRules_envOk_authCount ep uid sec d rules {} rfl
    simpa [triggerActions] using h

/-- C8 witness: a rule whose subscription filter does not match the event
leaves the initial state untouched — no token fetch, no call. -/
theorem claimC8_witness :
    runRule envOk "ep" "u1" "sec" { id := some "p1", subscription := none }
      (Rule.mk "r1" "u1" "n1" "subscription:promo"
        [RuleAction.mk RuleActionType.Archive []] none true 0 0) {} = {} :=
  claimC8_token_per_matched_rule.1 envOk "ep" "u1" "sec"
    { id := some "p1", subscription := none }
    (Rule.mk "r1" "u1" "n1" "subscription:promo"
      [RuleAction.mk RuleActionType.Archive []] none true 0 0) {} (by decide)

/-- C9 counterexample: an error-code Rule Store response (a rules object
carrying only errorCodes, no rules list) does NOT make getEnabledRules
fail: reading `.rules` on that object yields undefined, which is returned
as a normal value — exactly the "undefined rule list" the claim rules
out. -/
theorem claimC9_counterexample :
    getEnabledRules (Except.ok "tok")
      (fun _ => Except.ok (some
        { rules := some { errorCodes := some ["UNAUTHORIZED"], rules := none } })) =
      Except.ok none := by
  rfl

/-- C9 (amended): a MALFORMED response (no GraphQL data payload, or no
rules object inside it) makes getEnabledRules throw, and the error
propagates to the caller; but an error-code response (rules object present
without a rules list) returns undefined normally, and a success response
returns its rules list. -/
theorem claimC9_malformed_vs_error_response :
    (∀ a : String,
      getEnabledRules (Except.ok a) (fun _ => Except.ok none) =
        Except.error RulesQueryError.typeError) ∧
    (∀ a : String,
      getEnabledRules (Except.ok a) (fun _ => Except.ok (some { rules := none })) =
        Except.error RulesQueryError.typeError) ∧
    (∀ (a : String) (ro : RulesObj), ro.rules = none →
      getEnabledRules (Except.ok a) (fun _ => Except.ok (some { rules := some ro })) =
        Except.ok none) ∧
    (∀ (a : String) (ro : RulesObj) (rs : List Rule), ro.rules = some rs →
      getEnabledRules (Except.ok a) (fun _ => Except.ok (some { rules := some ro })) =
        Except.ok (some rs)) := by
  refine ⟨?_, ?_, ?_, ?_⟩
  · intro a; rfl
  · intro a; rfl
  · intro a ro hro
    simp [getEnabledRules, hro]
  · intro a ro rs hro
    simp [getEnabledRules, hro]

/-- C9 witness: a well-formed success response with an empty rules list is
returned as that list, and the rules-object-without-list case returns
undefined. -/
theorem claimC9_witness :
    getEnabledRules (Except.ok "tok")
      (fun _ => Except.ok (some { rules := some { errorCodes := none, rules := some [] } })) =
      Except.ok (some []) :=
  claimC9_malformed_vs_error_response.2.2.2 "tok"
    { errorCodes := none, rules := some [] } [] rfl

end RuleHandler
